import Mathlib

/-!
Verification of the debt / shared-expense ledger of the MadaFinances repository.

The definitions below are shallow embeddings of:
* `SheetsService.settle_shared_expense` and `SheetsService.get_balances`
  (src/services/sheets.py),
* `DebtService.add_debt`, `DebtService.get_balance`, `DebtService.settle_debt`
  (src/services/debt.py), together with the attribute lookups they perform on
  the `SheetsService` instance they hold,
* the id assignment `str(uuid.uuid4())` performed at entry creation
  (src/services/debt.py line 40; src/telegram_bot.py lines 355 and 402).

Modelling conventions: rows of the "Shared Expenses" worksheet are a typed
structure (the code always appends complete 8-column rows and the claims are
about well-formed sheets, so the ragged-row padding of the source is not
modelled); currency amounts are integers; `uuid.uuid4()` is an external random
generator, modelled as an oracle stream of its outputs; spreadsheet row
coordinates (which start at 2 in the source, `enumerate(all_values[1:], 2)`)
are replaced by 0-based positions in the list of data rows.
-/

namespace Mada

/-- One data row of the "Shared Expenses" worksheet, in the column order
created at sheets.py line 442:
Date, Description, Amount, Category, Person, Direction, Status, Settled Date. -/
structure Row where
  date : String
  description : String
  amount : Int
  category : String
  person : String
  direction : String
  status : String
  settledDate : String
deriving Repr, DecidableEq

/-- One element of the `unpaid_expenses` list built by
`settle_shared_expense` (sheets.py lines 209-221): the row position plus the
fields the settlement loop reads. -/
structure UnpaidExp where
  row_idx : Nat
  amount : Int
  direction : String
  status : String
deriving Repr, DecidableEq

/-- ASCII lower-casing of one character, as `str.lower()` acts on the ASCII
range (every status, direction and person token the ledger code compares is
ASCII). -/
def lowerChar (c : Char) : Char :=
  if 'A' ≤ c ∧ c ≤ 'Z' then Char.ofNat (c.toNat + 32) else c

/-- Python's `str.lower()` on ASCII strings. -/
def strLower (s : String) : String :=
  ⟨s.data.map lowerChar⟩

/-- The status test of sheets.py line 215:
`status.lower() == 'unpaid' or status.lower() == 'partial'`. -/
def isUnpaidStatus (s : String) : Bool :=
  strLower s == "unpaid" || strLower s == "partial"

/-- The row filter of sheets.py line 214-215: same person (case-insensitive)
and unpaid-or-partial status. -/
def keepsRow (person : String) (r : Row) : Bool :=
  strLower r.person == strLower person && isUnpaidStatus r.status

/-- The `unpaid_expenses` element built from a kept row at position `i`. -/
def mkExp (i : Nat) (r : Row) : UnpaidExp :=
  ⟨i, r.amount, r.direction, r.status⟩

/-- The scan of sheets.py lines 209-221, carrying the running row position. -/
def unpaidForAux (person : String) (i : Nat) : List Row → List UnpaidExp
  | [] => []
  | r :: rs =>
      if keepsRow person r then
        mkExp i r :: unpaidForAux person (i + 1) rs
      else
        unpaidForAux person (i + 1) rs

/-- The `unpaid_expenses` list of `settle_shared_expense` for `person`. -/
def unpaidFor (person : String) (rows : List Row) : List UnpaidExp :=
  unpaidForAux person 0 rows

/-- Sum of amounts of the unpaid expenses in direction `they_owe_me`
(sheets.py lines 227-228). -/
def theyOweMeOf (exps : List UnpaidExp) : Int :=
  ((exps.filter (fun e => strLower e.direction == "they_owe_me")).map (·.amount)).sum

/-- Sum of amounts of the unpaid expenses in direction `i_owe_them`
(sheets.py lines 229-230). -/
def iOweThemOf (exps : List UnpaidExp) : Int :=
  ((exps.filter (fun e => strLower e.direction == "i_owe_them")).map (·.amount)).sum

/-- Direction whose entries the settlement loop touches: the `net_amount > 0`
branch walks `they_owe_me` entries, the `else` branch walks `i_owe_them`
entries (sheets.py lines 243 and 263). -/
def dirOfNet (net : Int) : String :=
  if net > 0 then "they_owe_me" else "i_owe_them"

/-- The direction selected by `settle_shared_expense` for `person` on `rows`. -/
def chosenDir (person : String) (rows : List Row) : String :=
  dirOfNet (theyOweMeOf (unpaidFor person rows) - iOweThemOf (unpaidFor person rows))

/-- Sum of amounts of the unpaid expenses whose direction matches `d`. -/
def matchTotal (d : String) (exps : List UnpaidExp) : Int :=
  ((exps.filter (fun e => strLower e.direction == d)).map (·.amount)).sum

/-- `worksheet.update_cell` effects of a full settlement (sheets.py lines
252-254 / 272-274): Status becomes "Settled" and Settled Date becomes today. -/
def setSettled (today : String) (r : Row) : Row :=
  { r with status := "Settled", settledDate := today }

/-- `worksheet.update_cell` effect of a partial settlement (sheets.py lines
258-260 / 278-280): only the Status cell becomes "Partial"; the settled date
is deliberately not set and no other cell is written. -/
def setPartial (r : Row) : Row :=
  { r with status := "Partial" }

/-- Point update of the sheet at a row position, modelling a cell write. -/
def updateAt : List Row → Nat → (Row → Row) → List Row
  | [], _, _ => []
  | r :: rs, 0, f => f r :: rs
  | r :: rs, i + 1, f => r :: updateAt rs i f

/-- State threaded through the settlement loop of sheets.py lines 245-282:
the worksheet contents, `remaining`, and `settled_amount`. -/
structure AllocState where
  sheet : List Row
  remaining : Int
  settled : Int
deriving Repr, DecidableEq

/-- The settlement loop (sheets.py lines 246-262, duplicated verbatim for the
other direction at lines 266-282, so the wanted direction is a parameter):
for each expense of the wanted direction while `remaining > 0`, fully settle
it when `remaining >= amount`, otherwise mark it Partial and stop.  The
worksheet contents, `remaining` and `settled_amount` are threaded as explicit
arguments. -/
def allocate (dirWanted today : String) :
    List UnpaidExp → List Row → Int → Int → AllocState
  | [], sheet, remaining, settled => ⟨sheet, remaining, settled⟩
  | e :: rest, sheet, remaining, settled =>
      if strLower e.direction == dirWanted && decide (remaining > 0) then
        if remaining ≥ e.amount then
          allocate dirWanted today rest
            (updateAt sheet e.row_idx (setSettled today))
            (remaining - e.amount) (settled + e.amount)
        else
          allocate dirWanted today rest
            (updateAt sheet e.row_idx setPartial) 0 (settled + remaining)
      else
        allocate dirWanted today rest sheet remaining settled

/-- The comparison key of `sorted(unpaid_expenses, key=lambda x: x['amount'])`
(sheets.py lines 246 and 266). -/
def amountLE (a b : UnpaidExp) : Prop :=
  a.amount ≤ b.amount

instance : DecidableRel amountLE := fun a b => inferInstanceAs (Decidable (a.amount ≤ b.amount))

instance : IsTotal UnpaidExp amountLE := ⟨fun a b => le_total a.amount b.amount⟩

instance : IsTrans UnpaidExp amountLE := ⟨fun _ _ _ h h' => le_trans h h'⟩

/-- Result of `settle_shared_expense`.  The failure dictionaries of the source
carry only `success` and `message`; the model additionally carries the
(unchanged) sheet and zeroed numeric fields so that state can be observed. -/
structure SettleResult where
  success : Bool
  message : String
  sheet : List Row
  settled_amount : Int
  net_amount : Int
  they_owe_me : Int
  i_owe_them : Int
deriving Repr, DecidableEq

/-- `SheetsService.settle_shared_expense(person, amount)` (sheets.py lines
175-300) on a sheet whose data rows are `rows`, settling on day `today`
(the source uses `datetime.now()` for `today`). -/
def settle_shared_expense (rows : List Row) (person : String)
    (amount : Option Int) (today : String) : SettleResult :=
  if rows.isEmpty then
    ⟨false, "No shared expenses found", rows, 0, 0, 0, 0⟩
  else
    let unpaid := unpaidFor person rows
    if unpaid.isEmpty then
      ⟨false, "No unpaid expenses found for " ++ person, rows, 0, 0, 0, 0⟩
    else
      let they := theyOweMeOf unpaid
      let iowe := iOweThemOf unpaid
      let net := they - iowe
      let amt := match amount with
        | none => |net|
        | some a => a
      let fin := allocate (dirOfNet net) today
        (List.insertionSort amountLE unpaid) rows amt 0
      ⟨true, "Settled with " ++ person, fin.sheet, fin.settled, net, they, iowe⟩

/-- One balances-dictionary entry of `get_balances` (sheets.py lines 323-340):
the accumulated `they_owe_me` and `i_owe_them` sums. -/
def bump (p : String) (isThey : Bool) (a : Int) :
    List (String × Int × Int) → List (String × Int × Int)
  | [] => [(p, if isThey then (a, 0) else (0, a))]
  | (q, t, io) :: rest =>
      if q == p then
        (q, if isThey then (t + a, io) else (t, io + a)) :: rest
      else
        (q, t, io) :: bump p isThey a rest

/-- The accumulation loop of `get_balances` (sheets.py lines 315-336): rows of
status unpaid or partial are added to their person's entry, keyed by the exact
Person string; a row whose lowered direction is `they_owe_me` counts toward
`they_owe_me`, any other direction counts toward `i_owe_them`. -/
def accBalances : List Row → List (String × Int × Int) → List (String × Int × Int)
  | [], acc => acc
  | r :: rest, acc =>
      if isUnpaidStatus r.status then
        accBalances rest (bump r.person (strLower r.direction == "they_owe_me") r.amount acc)
      else
        accBalances rest acc

/-- A `get_balances` value: both direction sums and the derived net. -/
structure BalEntry where
  they_owe_me : Int
  i_owe_them : Int
  net_amount : Int
deriving Repr, DecidableEq

/-- `SheetsService.get_balances()` (sheets.py lines 302-347): accumulate the
active rows, then set `net_amount = they_owe_me - i_owe_them` per person. -/
def get_balances (rows : List Row) : List (String × BalEntry) :=
  (accBalances rows []).map (fun x => (x.1, ⟨x.2.1, x.2.2, x.2.1 - x.2.2⟩))

/-- Specification sum: contribution of `rows` to a person's `they_owe_me`
bucket, i.e. the amounts of unpaid-or-partial rows keyed exactly by `p` whose
lowered direction is `they_owe_me`. -/
def theySum (rows : List Row) (p : String) : Int :=
  ((rows.filter (fun r =>
    r.person == p && isUnpaidStatus r.status
      && strLower r.direction == "they_owe_me")).map (·.amount)).sum

/-- Specification sum: contribution of `rows` to a person's `i_owe_them`
bucket (any lowered direction other than `they_owe_me`, mirroring the `else`
of sheets.py line 333). -/
def ioSum (rows : List Row) (p : String) : Int :=
  ((rows.filter (fun r =>
    r.person == p && isUnpaidStatus r.status
      && !(strLower r.direction == "they_owe_me"))).map (·.amount)).sum

/-- Whether some unpaid-or-partial row is keyed by `p`: exactly when
`get_balances` creates a dictionary entry for `p`. -/
def hasActive (rows : List Row) (p : String) : Bool :=
  rows.any (fun r => r.person == p && isUnpaidStatus r.status)

/-- Specification sum following the spec's words for `owedByUser`: the amounts
of unpaid-or-partial rows keyed by `p` whose lowered direction is exactly
`i_owe_them` (to be compared with `ioSum`, the sum the code computes through
its `else` branch). -/
def ioSumDir (rows : List Row) (p : String) : Int :=
  ((rows.filter (fun r =>
    r.person == p && isUnpaidStatus r.status
      && (strLower r.direction == "i_owe_them"))).map (·.amount)).sum

/-- The methods defined on `SheetsService` (sheets.py lines 27-966). -/
def sheetsServiceMethods : List String :=
  ["__init__", "_get_client", "log_shared_expense", "get_shared_expenses",
   "settle_shared_expense", "get_balances", "_ensure_sheets_exist",
   "log_paid_for_expense", "get_paid_for_expenses", "log_expense",
   "get_expenses_in_date_range", "delete_expense", "get_categories",
   "set_budget", "get_budget", "_date_from_str"]

/-- Python attribute lookup on a `SheetsService` instance. -/
def hasMethod (name : String) : Bool :=
  sheetsServiceMethods.contains name

/-- The AttributeError message Python raises for a missing method. -/
def attrErrorMsg (m : String) : String :=
  "'SheetsService' object has no attribute '" ++ m ++ "'"

/-- Outcome of the AI field-extraction collaborator: a dict containing an
`error` key, or a structured draft. -/
inductive Parse (α : Type) where
  | err (msg : String)
  | ok (d : α)
deriving Repr, DecidableEq

/-- A structured debt draft as produced by `AIAgent.parse_debt`. -/
structure DebtData where
  person : String
  amount : Int
  description : String
  direction : String
  date : Option String
deriving Repr, DecidableEq

/-- A structured settlement as produced by `AIAgent.parse_debt_settlement`
or by the direct pattern at telegram_bot.py lines 314-318. -/
structure SettlementData where
  person : String
  amount : Option Int
  date : Option String
deriving Repr, DecidableEq

/-- The success/message pair returned by the `DebtService` handlers. -/
structure DebtResult where
  success : Bool
  message : String
deriving Repr, DecidableEq

/-- A row of the Expenses sheet as written by `log_expense`. -/
structure Expense where
  date : String
  description : String
  amount : Int
  category : String
  source : String
deriving Repr, DecidableEq

/-- `DebtService.add_debt` (debt.py lines 17-81) over the parse outcome.
After a successful parse the draft receives `id = str(uuid.uuid4())` and
`status = "active"`, and then `self.sheets.record_debt(debt_data)` is looked
up; `SheetsService` defines no `record_debt`, so Python raises
AttributeError, caught at line 74, producing the failure result with the
store untouched.  The first branch is dead code kept only to mirror the
attribute lookup. -/
def add_debt (store : List Row) (p : Parse DebtData) : DebtResult × List Row :=
  match p with
  | .err e => (⟨false, "Error parsing debt: " ++ e⟩, store)
  | .ok _ =>
      if hasMethod "record_debt" then
        (⟨true, "unreachable: record_debt does not exist"⟩, store)
      else
        (⟨false, "Error adding debt: " ++ attrErrorMsg "record_debt"⟩, store)

/-- `DebtService.get_balance` (debt.py lines 83-142): both branches first call
`self.sheets.get_net_balance`, which `SheetsService` does not define, so
every call fails with the AttributeError-derived message. -/
def get_balance (_person : Option String) : DebtResult :=
  if hasMethod "get_net_balance" then
    ⟨true, "unreachable: get_net_balance does not exist"⟩
  else
    ⟨false, "Error getting balance: " ++ attrErrorMsg "get_net_balance"⟩

/-- `DebtService.settle_debt` (debt.py lines 144-254) over the parse outcome,
with the Expenses sheet threaded to observe the expense side effect of lines
210-228.  After a successful parse the code calls
`self.sheets.get_debts_by_person(person, status="active")` (line 175);
`SheetsService` defines no `get_debts_by_person`, so Python raises
AttributeError, caught at line 247: the handler returns failure, no debt row
is changed and no expense is logged — the expense-logging code at lines
210-228 is unreachable. -/
def debt_settle_debt (store : List Row) (expenseLog : List Expense)
    (p : Parse SettlementData) : DebtResult × List Row × List Expense :=
  match p with
  | .err e => (⟨false, "Error parsing settlement: " ++ e⟩, store, expenseLog)
  | .ok _ =>
      if hasMethod "get_debts_by_person" then
        (⟨true, "unreachable: get_debts_by_person does not exist"⟩, store, expenseLog)
      else
        (⟨false, "Error settling debt: " ++ attrErrorMsg "get_debts_by_person"⟩,
         store, expenseLog)

/-- The id assigned by the k-th entry creation: `str(uuid.uuid4())` (debt.py
line 40; telegram_bot.py lines 355 and 402).  `uuid.uuid4()` is an external
random generator, modelled as an oracle stream `uuids` of its outputs. -/
def debtIdOfCreation (uuids : List String) (k : Nat) : Option String :=
  uuids.get? k

/-! ### Basic lemmas about the point update of the sheet -/

theorem updateAt_length (f : Row → Row) :
    ∀ (l : List Row) (i : Nat), (updateAt l i f).length = l.length := by
  intro l
  induction l with
  | nil => intro i; rfl
  | cons r rs ih =>
      intro i
      cases i with
      | zero => rfl
      | succ j => simpa [updateAt] using ih j

theorem get?_updateAt_ne (f : Row → Row) :
    ∀ (l : List Row) (i j : Nat), j ≠ i →
      (updateAt l i f).get? j = l.get? j := by
  intro l
  induction l with
  | nil => intro i j _; rfl
  | cons r rs ih =>
      intro i j h
      cases i with
      | zero =>
          cases j with
          | zero => exact absurd rfl h
          | succ j' => simp [updateAt, List.get?]
      | succ i' =>
          cases j with
          | zero => simp [updateAt, List.get?]
          | succ j' =>
              simp only [updateAt, List.get?]
              exact ih i' j' (fun hh => h (by rw [hh]))

theorem get?_updateAt_self (f : Row → Row) :
    ∀ (l : List Row) (i : Nat),
      (updateAt l i f).get? i = (l.get? i).map f := by
  intro l
  induction l with
  | nil => intro i; rfl
  | cons r rs ih =>
      intro i
      cases i with
      | zero => simp [updateAt, List.get?]
      | succ i' => simpa [updateAt, List.get?] using ih i'

/-! ### Structure of the `unpaid_expenses` list -/

theorem mem_unpaidForAux_imp {person : String} :
    ∀ (rows : List Row) (i : Nat) (e : UnpaidExp),
      e ∈ unpaidForAux person i rows →
      ∃ j r, rows.get? j = some r ∧ keepsRow person r = true ∧ e = mkExp (i + j) r := by
  intro rows
  induction rows with
  | nil => intro i e he; simp [unpaidForAux] at he
  | cons r rs ih =>
      intro i e he
      simp only [unpaidForAux] at he
      by_cases h : keepsRow person r
      · rw [if_pos h] at he
        rcases List.mem_cons.mp he with rfl | he'
        · exact ⟨0, r, by simp [List.get?], h, by simp [Nat.add_zero]⟩
        · obtain ⟨j, r', hg, hk, heq⟩ := ih (i + 1) e he'
          refine ⟨j + 1, r', by simpa [List.get?] using hg, hk, ?_⟩
          rw [heq]
          congr 1
          omega
      · rw [if_neg h] at he
        obtain ⟨j, r', hg, hk, heq⟩ := ih (i + 1) e he
        refine ⟨j + 1, r', by simpa [List.get?] using hg, hk, ?_⟩
        rw [heq]
        congr 1
        omega

theorem mkExp_mem_unpaidForAux {person : String} :
    ∀ (rows : List Row) (i j : Nat) (r : Row),
      rows.get? j = some r → keepsRow person r = true →
      mkExp (i + j) r ∈ unpaidForAux person i rows := by
  intro rows
  induction rows with
  | nil => intro i j r hg _; simp [List.get?] at hg
  | cons a rs ih =>
      intro i j r hg hk
      cases j with
      | zero =>
          have ha : a = r := by simpa [List.get?] using hg
          subst ha
          simp only [unpaidForAux, if_pos hk, Nat.add_zero]
          exact List.mem_cons_self _ _
      | succ j' =>
          have hg' : rs.get? j' = some r := by simpa [List.get?] using hg
          have hmem := ih (i + 1) j' r hg' hk
          have hidx : i + (j' + 1) = (i + 1) + j' := by omega
          simp only [unpaidForAux]
          by_cases h : keepsRow person a
          · rw [if_pos h]
            exact List.mem_cons_of_mem _ (by rw [hidx]; exact hmem)
          · rw [if_neg h, hidx]
            exact hmem

theorem unpaidForAux_idx_le {person : String} :
    ∀ (rows : List Row) (i : Nat) (e : UnpaidExp),
      e ∈ unpaidForAux person i rows → i ≤ e.row_idx := by
  intro rows
  induction rows with
  | nil => intro i e he; simp [unpaidForAux] at he
  | cons r rs ih =>
      intro i e he
      simp only [unpaidForAux] at he
      by_cases h : keepsRow person r
      · rw [if_pos h] at he
        rcases List.mem_cons.mp he with rfl | he'
        · exact le_refl _
        · exact le_trans (Nat.le_succ i) (ih (i + 1) e he')
      · rw [if_neg h] at he
        exact le_trans (Nat.le_succ i) (ih (i + 1) e he)

theorem unpaidForAux_pairwise {person : String} :
    ∀ (rows : List Row) (i : Nat),
      List.Pairwise (fun a b => a.row_idx < b.row_idx) (unpaidForAux person i rows) := by
  intro rows
  induction rows with
  | nil => intro i; simp [unpaidForAux]
  | cons r rs ih =>
      intro i
      simp only [unpaidForAux]
      by_cases h : keepsRow person r
      · rw [if_pos h]
        refine List.Pairwise.cons ?_ (ih (i + 1))
        intro b hb
        have := unpaidForAux_idx_le rs (i + 1) b hb
        simp only [mkExp]
        omega
      · rw [if_neg h]
        exact ih (i + 1)

theorem mem_unpaidFor_imp {person : String} {rows : List Row} {e : UnpaidExp}
    (he : e ∈ unpaidFor person rows) :
    ∃ r, rows.get? e.row_idx = some r ∧ keepsRow person r = true ∧ e = mkExp e.row_idx r := by
  obtain ⟨j, r, hg, hk, heq⟩ := mem_unpaidForAux_imp rows 0 e he
  have hj : e.row_idx = j := by rw [heq]; simp [mkExp]
  subst hj
  exact ⟨r, by simpa using hg, hk, by simpa using heq⟩

theorem mkExp_mem_unpaidFor {person : String} {rows : List Row} {j : Nat} {r : Row}
    (hg : rows.get? j = some r) (hk : keepsRow person r = true) :
    mkExp j r ∈ unpaidFor person rows := by
  have := mkExp_mem_unpaidForAux rows 0 j r hg hk
  simpa using this

theorem unpaidFor_pairwise_ne (person : String) (rows : List Row) :
    List.Pairwise (fun a b : UnpaidExp => a.row_idx ≠ b.row_idx) (unpaidFor person rows) :=
  (unpaidForAux_pairwise rows 0).imp (fun h => Nat.ne_of_lt h)

/-! ### Lemmas about `matchTotal` -/

theorem matchTotal_cons (d : String) (e : UnpaidExp) (rest : List UnpaidExp) :
    matchTotal d (e :: rest) =
      (if strLower e.direction == d then e.amount else 0) + matchTotal d rest := by
  simp only [matchTotal, List.filter_cons]
  split
  · simp [List.sum_cons]
  · simp

theorem matchTotal_nonneg (d : String) (exps : List UnpaidExp)
    (h : ∀ e ∈ exps, strLower e.direction = d → 0 < e.amount) :
    0 ≤ matchTotal d exps := by
  refine List.sum_nonneg ?_
  intro x hx
  simp only [List.mem_map] at hx
  obtain ⟨e, he, rfl⟩ := hx
  have hmem := List.mem_filter.mp he
  exact le_of_lt (h e hmem.1 (by simpa using hmem.2))

/-! ### Lemmas about the settlement loop -/

theorem allocate_length (d t : String) :
    ∀ (exps : List UnpaidExp) (sheet : List Row) (rem se : Int),
      (allocate d t exps sheet rem se).sheet.length = sheet.length := by
  intro exps
  induction exps with
  | nil => intro sheet rem se; rfl
  | cons e rest ih =>
      intro sheet rem se
      simp only [allocate]
      by_cases hg : (strLower e.direction == d && decide (rem > 0)) = true
      · rw [if_pos hg]
        by_cases hr : rem ≥ e.amount
        · rw [if_pos hr, ih]
          exact updateAt_length _ _ _
        · rw [if_neg hr, ih]
          exact updateAt_length _ _ _
      · rw [if_neg hg]
        exact ih sheet rem se

theorem allocate_nonpos (d t : String) :
    ∀ (exps : List UnpaidExp) (sheet : List Row) (rem se : Int), rem ≤ 0 →
      allocate d t exps sheet rem se = ⟨sheet, rem, se⟩ := by
  intro exps
  induction exps with
  | nil => intro sheet rem se _; rfl
  | cons e rest ih =>
      intro sheet rem se h
      have hb : (decide (rem > 0)) = false := by
        simp only [decide_eq_false_iff_not]
        omega
      simp only [allocate, hb, Bool.and_false]
      rw [if_neg (by simp)]
      exact ih sheet rem se h

theorem allocate_frame (d t : String) :
    ∀ (exps : List UnpaidExp) (sheet : List Row) (rem se : Int) (j : Nat),
      (∀ e ∈ exps, e.row_idx = j → ¬ strLower e.direction = d) →
      (allocate d t exps sheet rem se).sheet.get? j = sheet.get? j := by
  intro exps
  induction exps with
  | nil => intro sheet rem se j _; rfl
  | cons e rest ih =>
      intro sheet rem se j hf
      simp only [allocate]
      by_cases hg : (strLower e.direction == d && decide (rem > 0)) = true
      · have hd : strLower e.direction = d :=
          beq_iff_eq.mp ((Bool.and_eq_true _ _).mp hg).1
        have hne : e.row_idx ≠ j := fun hh => (hf e (List.mem_cons_self _ _) hh) hd
        rw [if_pos hg]
        by_cases hr : rem ≥ e.amount
        · rw [if_pos hr, ih _ _ _ j (fun e' he' => hf e' (List.mem_cons_of_mem _ he'))]
          exact get?_updateAt_ne _ _ _ _ (Ne.symm hne)
        · rw [if_neg hr, ih _ _ _ j (fun e' he' => hf e' (List.mem_cons_of_mem _ he'))]
          exact get?_updateAt_ne _ _ _ _ (Ne.symm hne)
      · rw [if_neg hg]
        exact ih sheet rem se j (fun e' he' => hf e' (List.mem_cons_of_mem _ he'))

theorem allocate_shape (d t : String) :
    ∀ (exps : List UnpaidExp) (sheet : List Row) (rem se : Int) (j : Nat),
      List.Pairwise (fun a b : UnpaidExp => a.row_idx ≠ b.row_idx) exps →
      (allocate d t exps sheet rem se).sheet.get? j = sheet.get? j ∨
      ∃ r, sheet.get? j = some r ∧
        ((allocate d t exps sheet rem se).sheet.get? j = some (setSettled t r) ∨
         (allocate d t exps sheet rem se).sheet.get? j = some (setPartial r)) := by
  intro exps
  induction exps with
  | nil => intro sheet rem se j _; exact Or.inl rfl
  | cons e rest ih =>
      intro sheet rem se j hp
      have hhead := (List.pairwise_cons.mp hp).1
      have htail := (List.pairwise_cons.mp hp).2
      simp only [allocate]
      by_cases hg : (strLower e.direction == d && decide (rem > 0)) = true
      · rw [if_pos hg]
        by_cases hr : rem ≥ e.amount
        · rw [if_pos hr]
          by_cases hj : j = e.row_idx
          · subst hj
            have hframe :
                (allocate d t rest (updateAt sheet e.row_idx (setSettled t))
                  (rem - e.amount) (se + e.amount)).sheet.get? e.row_idx =
                  (updateAt sheet e.row_idx (setSettled t)).get? e.row_idx := by
              apply allocate_frame
              intro e' he' hj' _
              exact (hhead e' he') hj'.symm
            rw [hframe, get?_updateAt_self]
            cases hc : sheet.get? e.row_idx with
            | none => exact Or.inl (by simp)
            | some r => exact Or.inr ⟨r, rfl, Or.inl (by simp)⟩
          · have hrest := ih (updateAt sheet e.row_idx (setSettled t))
              (rem - e.amount) (se + e.amount) j htail
            rw [get?_updateAt_ne _ _ _ _ hj] at hrest
            exact hrest
        · rw [if_neg hr]
          have hstop := allocate_nonpos d t rest
            (updateAt sheet e.row_idx setPartial) 0 (se + rem) (le_refl 0)
          rw [hstop]
          by_cases hj : j = e.row_idx
          · subst hj
            have hself : (updateAt sheet e.row_idx setPartial).get? e.row_idx =
                (sheet.get? e.row_idx).map setPartial :=
              get?_updateAt_self _ _ _
            rw [show (⟨updateAt sheet e.row_idx setPartial, 0, se + rem⟩ : AllocState).sheet =
              updateAt sheet e.row_idx setPartial from rfl, hself]
            cases hc : sheet.get? e.row_idx with
            | none => exact Or.inl (by simp)
            | some r => exact Or.inr ⟨r, rfl, Or.inr (by simp)⟩
          · rw [show (⟨updateAt sheet e.row_idx setPartial, 0, se + rem⟩ : AllocState).sheet =
              updateAt sheet e.row_idx setPartial from rfl]
            exact Or.inl (get?_updateAt_ne _ _ _ _ hj)
      · rw [if_neg hg]
        exact ih sheet rem se j htail

theorem allocate_cover (d t : String) :
    ∀ (exps : List UnpaidExp) (sheet : List Row) (rem se : Int),
      List.Pairwise (fun a b : UnpaidExp => a.row_idx ≠ b.row_idx) exps →
      (∀ e ∈ exps, strLower e.direction = d → 0 < e.amount) →
      matchTotal d exps ≤ rem →
      (allocate d t exps sheet rem se).remaining = rem - matchTotal d exps ∧
      (allocate d t exps sheet rem se).settled = se + matchTotal d exps ∧
      ∀ e ∈ exps, strLower e.direction = d →
        (allocate d t exps sheet rem se).sheet.get? e.row_idx =
          (sheet.get? e.row_idx).map (setSettled t) := by
  intro exps
  induction exps with
  | nil =>
      intro sheet rem se _ _ _
      refine ⟨by simp [allocate, matchTotal], by simp [allocate, matchTotal], ?_⟩
      intro e he
      simp at he
  | cons g rest ih =>
      intro sheet rem se hp hpos hle
      have hhead := (List.pairwise_cons.mp hp).1
      have htail := (List.pairwise_cons.mp hp).2
      have hrestpos : ∀ e' ∈ rest, strLower e'.direction = d → 0 < e'.amount :=
        fun e' he' => hpos e' (List.mem_cons_of_mem _ he')
      by_cases hd : strLower g.direction = d
      · have hbe : (strLower g.direction == d) = true := beq_iff_eq.mpr hd
        have hmt : matchTotal d (g :: rest) = g.amount + matchTotal d rest := by
          rw [matchTotal_cons, if_pos hbe]
        have hrest0 : 0 ≤ matchTotal d rest := matchTotal_nonneg d rest hrestpos
        have hga : 0 < g.amount := hpos g (List.mem_cons_self _ _) hd
        have hrge : rem ≥ g.amount := by rw [hmt] at hle; omega
        have hrpos : rem > 0 := by omega
        have hg : (strLower g.direction == d && decide (rem > 0)) = true := by
          rw [hbe]
          simp [hrpos]
        have hle' : matchTotal d rest ≤ rem - g.amount := by rw [hmt] at hle; omega
        obtain ⟨ih1, ih2, ih3⟩ := ih (updateAt sheet g.row_idx (setSettled t))
          (rem - g.amount) (se + g.amount) htail hrestpos hle'
        simp only [allocate]
        rw [if_pos hg, if_pos hrge]
        refine ⟨by rw [ih1, hmt]; ring, by rw [ih2, hmt]; ring, ?_⟩
        intro e' he' hd'
        rcases List.mem_cons.mp he' with rfl | he''
        · have hframe :
              (allocate d t rest (updateAt sheet e'.row_idx (setSettled t))
                (rem - e'.amount) (se + e'.amount)).sheet.get? e'.row_idx =
                (updateAt sheet e'.row_idx (setSettled t)).get? e'.row_idx := by
            apply allocate_frame
            intro x hx hxj _
            exact (hhead x hx) hxj.symm
          rw [hframe, get?_updateAt_self]
        · have hx := ih3 e' he'' hd'
          rw [get?_updateAt_ne _ _ _ _ (Ne.symm (hhead e' he''))] at hx
          exact hx
      · have hbe : (strLower g.direction == d) = false := by
          simp [hd]
        have hmt : matchTotal d (g :: rest) = matchTotal d rest := by
          rw [matchTotal_cons, hbe]
          simp
        have hgf : (strLower g.direction == d && decide (rem > 0)) = false := by
          rw [hbe]
          simp
        obtain ⟨ih1, ih2, ih3⟩ := ih sheet rem se htail hrestpos (by rw [hmt] at hle; exact hle)
        simp only [allocate]
        rw [if_neg (by simp [hgf])]
        refine ⟨by rw [ih1, hmt], by rw [ih2, hmt], ?_⟩
        intro e' he' hd'
        rcases List.mem_cons.mp he' with rfl | he''
        · exact absurd hd' hd
        · exact ih3 e' he'' hd'

theorem setSettled_ne_self {t : String} {r : Row}
    (h : isUnpaidStatus r.status = true) : ¬ setSettled t r = r := by
  intro heq
  have hst : "Settled" = r.status := congrArg Row.status heq
  rw [← hst] at h
  have hf : isUnpaidStatus "Settled" = false := rfl
  rw [hf] at h
  cases h

theorem setPartial_ne_setSettled {t : String} {r r' : Row} :
    ¬ setPartial r = setSettled t r' := by
  intro heq
  have hst : "Partial" = "Settled" := congrArg Row.status heq
  simp at hst

theorem allocate_order (d t : String) :
    ∀ (exps : List UnpaidExp) (sheet : List Row) (rem se : Int),
      List.Pairwise (fun a b : UnpaidExp => a.row_idx ≠ b.row_idx) exps →
      List.Pairwise amountLE exps →
      (∀ e ∈ exps, ∃ r, sheet.get? e.row_idx = some r ∧ isUnpaidStatus r.status = true) →
      ∀ a f, a ∈ exps → f ∈ exps →
        strLower a.direction = d → strLower f.direction = d →
        a.amount < f.amount →
        (∃ rf, sheet.get? f.row_idx = some rf ∧
          (allocate d t exps sheet rem se).sheet.get? f.row_idx = some (setSettled t rf)) →
        ∃ ra, sheet.get? a.row_idx = some ra ∧
          (allocate d t exps sheet rem se).sheet.get? a.row_idx = some (setSettled t ra) := by
  intro exps
  induction exps with
  | nil =>
      intro sheet rem se _ _ _ a f ha
      simp at ha
  | cons g rest ih =>
      intro sheet rem se hp hs hrows a f ha hf hda hdf hlt hfset
      have hhead := (List.pairwise_cons.mp hp).1
      have htail := (List.pairwise_cons.mp hp).2
      have hshead := (List.pairwise_cons.mp hs).1
      have hstail := (List.pairwise_cons.mp hs).2
      by_cases hrpos : rem > 0
      · by_cases hgd : strLower g.direction = d
        · have hg : (strLower g.direction == d && decide (rem > 0)) = true := by
            simp [beq_iff_eq.mpr hgd, hrpos]
          by_cases hfull : rem ≥ g.amount
          · simp only [allocate] at hfset ⊢
            rw [if_pos hg, if_pos hfull] at hfset ⊢
            have hrows' : ∀ e ∈ rest, ∃ r,
                (updateAt sheet g.row_idx (setSettled t)).get? e.row_idx = some r ∧
                isUnpaidStatus r.status = true := by
              intro e he
              obtain ⟨r, hr, hu⟩ := hrows e (List.mem_cons_of_mem _ he)
              refine ⟨r, ?_, hu⟩
              rw [get?_updateAt_ne _ _ _ _ (Ne.symm (hhead e he))]
              exact hr
            by_cases hag : a = g
            · subst hag
              obtain ⟨r0, hr0, _⟩ := hrows a (List.mem_cons_self _ _)
              refine ⟨r0, hr0, ?_⟩
              have hframe :
                  (allocate d t rest (updateAt sheet a.row_idx (setSettled t))
                    (rem - a.amount) (se + a.amount)).sheet.get? a.row_idx =
                    (updateAt sheet a.row_idx (setSettled t)).get? a.row_idx := by
                apply allocate_frame
                intro x hx hxj _
                exact (hhead x hx) hxj.symm
              rw [hframe, get?_updateAt_self, hr0]
              rfl
            · have ha' : a ∈ rest := by
                rcases List.mem_cons.mp ha with h | h
                · exact absurd h hag
                · exact h
              by_cases hfg : f = g
              · subst hfg
                have hfa : amountLE f a := hshead a ha'
                simp only [amountLE] at hfa
                omega
              · have hf' : f ∈ rest := by
                  rcases List.mem_cons.mp hf with h | h
                  · exact absurd h hfg
                  · exact h
                have hfs' : ∃ rf,
                    (updateAt sheet g.row_idx (setSettled t)).get? f.row_idx = some rf ∧
                    (allocate d t rest (updateAt sheet g.row_idx (setSettled t))
                      (rem - g.amount) (se + g.amount)).sheet.get? f.row_idx =
                      some (setSettled t rf) := by
                  obtain ⟨rf, h1, h2⟩ := hfset
                  refine ⟨rf, ?_, h2⟩
                  rw [get?_updateAt_ne _ _ _ _ (Ne.symm (hhead f hf'))]
                  exact h1
                obtain ⟨ra, h1, h2⟩ := ih (updateAt sheet g.row_idx (setSettled t))
                  (rem - g.amount) (se + g.amount) htail hstail hrows' a f ha' hf' hda hdf hlt hfs'
                refine ⟨ra, ?_, h2⟩
                rw [← h1, get?_updateAt_ne _ _ _ _ (Ne.symm (hhead a ha'))]
          · simp only [allocate] at hfset
            rw [if_pos hg, if_neg hfull,
              allocate_nonpos d t rest _ 0 _ (le_refl 0)] at hfset
            obtain ⟨rf, hrf, hset⟩ := hfset
            have hset' : (updateAt sheet g.row_idx setPartial).get? f.row_idx =
                some (setSettled t rf) := hset
            by_cases hfg : f = g
            · subst hfg
              rw [get?_updateAt_self, hrf] at hset'
              have hps : setPartial rf = setSettled t rf := by
                simpa using hset'
              exact absurd hps setPartial_ne_setSettled
            · have hf' : f ∈ rest := by
                rcases List.mem_cons.mp hf with h | h
                · exact absurd h hfg
                · exact h
              rw [get?_updateAt_ne _ _ _ _ (Ne.symm (hhead f hf')), hrf] at hset'
              have heq : rf = setSettled t rf := by simpa using hset'
              obtain ⟨r0, hr0, hu⟩ := hrows f hf
              rw [hrf] at hr0
              have hr0' : rf = r0 := by simpa using hr0
              rw [← hr0'] at hu
              exact absurd heq.symm (setSettled_ne_self hu)
        · have hg : (strLower g.direction == d && decide (rem > 0)) = false := by
            simp [hgd]
          simp only [allocate] at hfset ⊢
          rw [if_neg (by simp [hg])] at hfset ⊢
          have ha' : a ∈ rest := by
            rcases List.mem_cons.mp ha with h | h
            · exact absurd (h ▸ hda) hgd
            · exact h
          have hf' : f ∈ rest := by
            rcases List.mem_cons.mp hf with h | h
            · exact absurd (h ▸ hdf) hgd
            · exact h
          exact ih sheet rem se htail hstail
            (fun e he => hrows e (List.mem_cons_of_mem _ he)) a f ha' hf' hda hdf hlt hfset
      · have hstop := allocate_nonpos d t (g :: rest) sheet rem se (by omega)
        rw [hstop] at hfset
        obtain ⟨rf, hrf, hset⟩ := hfset
        have hset' : sheet.get? f.row_idx = some (setSettled t rf) := hset
        rw [hrf] at hset'
        have heq : rf = setSettled t rf := by simpa using hset'
        obtain ⟨r0, hr0, hu⟩ := hrows f hf
        rw [hrf] at hr0
        have hr0' : rf = r0 := by simpa using hr0
        rw [← hr0'] at hu
        exact absurd heq.symm (setSettled_ne_self hu)

/-! ### Unfolding lemmas for `settle_shared_expense` -/

theorem settle_active_eq (rows : List Row) (person : String) (a : Int) (today : String)
    (hne : unpaidFor person rows ≠ []) :
    settle_shared_expense rows person (some a) today =
      ⟨true, "Settled with " ++ person,
       (allocate (chosenDir person rows) today
         (List.insertionSort amountLE (unpaidFor person rows)) rows a 0).sheet,
       (allocate (chosenDir person rows) today
         (List.insertionSort amountLE (unpaidFor person rows)) rows a 0).settled,
       theyOweMeOf (unpaidFor person rows) - iOweThemOf (unpaidFor person rows),
       theyOweMeOf (unpaidFor person rows), iOweThemOf (unpaidFor person rows)⟩ := by
  have hrows : rows.isEmpty = false := by
    cases rows with
    | nil => exact absurd rfl hne
    | cons _ _ => rfl
  have hu : (unpaidFor person rows).isEmpty = false := by
    cases hh : unpaidFor person rows with
    | nil => exact absurd hh hne
    | cons _ _ => rfl
  simp only [settle_shared_expense, hrows, hu, Bool.false_eq_true, if_false, chosenDir]

theorem settle_no_unpaid (rows : List Row) (person : String) (amount : Option Int)
    (today : String) (hne : unpaidFor person rows = []) :
    (settle_shared_expense rows person amount today).success = false ∧
    (settle_shared_expense rows person amount today).sheet = rows ∧
    (settle_shared_expense rows person amount today).settled_amount = 0 := by
  cases rows with
  | nil => exact ⟨rfl, rfl, rfl⟩
  | cons r rs =>
      have hrows : (r :: rs).isEmpty = false := rfl
      have hu : (unpaidFor person (r :: rs)).isEmpty = true := by
        rw [hne]
        rfl
      simp [settle_shared_expense, hrows, hu]

theorem settle_active_eq_none (rows : List Row) (person : String) (today : String)
    (hne : unpaidFor person rows ≠ []) :
    settle_shared_expense rows person none today =
      ⟨true, "Settled with " ++ person,
       (allocate (chosenDir person rows) today
         (List.insertionSort amountLE (unpaidFor person rows)) rows
         |theyOweMeOf (unpaidFor person rows) - iOweThemOf (unpaidFor person rows)| 0).sheet,
       (allocate (chosenDir person rows) today
         (List.insertionSort amountLE (unpaidFor person rows)) rows
         |theyOweMeOf (unpaidFor person rows) - iOweThemOf (unpaidFor person rows)| 0).settled,
       theyOweMeOf (unpaidFor person rows) - iOweThemOf (unpaidFor person rows),
       theyOweMeOf (unpaidFor person rows), iOweThemOf (unpaidFor person rows)⟩ := by
  have hrows : rows.isEmpty = false := by
    cases rows with
    | nil => exact absurd rfl hne
    | cons _ _ => rfl
  have hu : (unpaidFor person rows).isEmpty = false := by
    cases hh : unpaidFor person rows with
    | nil => exact absurd hh hne
    | cons _ _ => rfl
  simp only [settle_shared_expense, hrows, hu, Bool.false_eq_true, if_false, chosenDir]

theorem settle_active_any (rows : List Row) (person : String) (amount : Option Int)
    (today : String) (hne : unpaidFor person rows ≠ []) :
    ∃ amt : Int, settle_shared_expense rows person amount today =
      ⟨true, "Settled with " ++ person,
       (allocate (chosenDir person rows) today
         (List.insertionSort amountLE (unpaidFor person rows)) rows amt 0).sheet,
       (allocate (chosenDir person rows) today
         (List.insertionSort amountLE (unpaidFor person rows)) rows amt 0).settled,
       theyOweMeOf (unpaidFor person rows) - iOweThemOf (unpaidFor person rows),
       theyOweMeOf (unpaidFor person rows), iOweThemOf (unpaidFor person rows)⟩ := by
  cases amount with
  | none =>
      exact ⟨_, settle_active_eq_none rows person today hne⟩
  | some a =>
      exact ⟨a, settle_active_eq rows person a today hne⟩

/-! ### Transfer lemmas to the amount-sorted unpaid list -/

theorem sortedU_pairwise_ne (person : String) (rows : List Row) :
    List.Pairwise (fun a b : UnpaidExp => a.row_idx ≠ b.row_idx)
      (List.insertionSort amountLE (unpaidFor person rows)) :=
  ((List.perm_insertionSort amountLE (unpaidFor person rows)).pairwise_iff
    (fun h' => Ne.symm h')).mpr (unpaidFor_pairwise_ne person rows)

theorem sortedU_sorted (person : String) (rows : List Row) :
    List.Pairwise amountLE (List.insertionSort amountLE (unpaidFor person rows)) :=
  List.sorted_insertionSort amountLE (unpaidFor person rows)

theorem mem_sortedU {person : String} {rows : List Row} {e : UnpaidExp} :
    e ∈ List.insertionSort amountLE (unpaidFor person rows) ↔ e ∈ unpaidFor person rows :=
  (List.perm_insertionSort amountLE (unpaidFor person rows)).mem_iff

theorem matchTotal_sortedU (d : String) (person : String) (rows : List Row) :
    matchTotal d (List.insertionSort amountLE (unpaidFor person rows)) =
      matchTotal d (unpaidFor person rows) :=
  (((List.perm_insertionSort amountLE (unpaidFor person rows)).filter _).map _).sum_eq

/-! ### Lookup lemmas for `get_balances` -/

theorem theySum_cons (r : Row) (rest : List Row) (p : String) :
    theySum (r :: rest) p =
      (if r.person == p && isUnpaidStatus r.status
          && (strLower r.direction == "they_owe_me") then r.amount else 0)
        + theySum rest p := by
  simp only [theySum, List.filter_cons]
  split
  · simp [List.sum_cons]
  · simp

theorem ioSum_cons (r : Row) (rest : List Row) (p : String) :
    ioSum (r :: rest) p =
      (if r.person == p && isUnpaidStatus r.status
          && !(strLower r.direction == "they_owe_me") then r.amount else 0)
        + ioSum rest p := by
  simp only [ioSum, List.filter_cons]
  split
  · simp [List.sum_cons]
  · simp

theorem hasActive_cons (r : Row) (rest : List Row) (p : String) :
    hasActive (r :: rest) p =
      ((r.person == p && isUnpaidStatus r.status) || hasActive rest p) := by
  simp [hasActive, List.any_cons]

theorem lookup_bump_ne (q : String) (th : Bool) (a : Int) (p : String) (h : ¬ p = q) :
    ∀ acc : List (String × Int × Int), (bump q th a acc).lookup p = acc.lookup p := by
  intro acc
  induction acc with
  | nil =>
      have hpq : (p == q) = false := by simp [h]
      simp [bump, List.lookup, hpq]
  | cons kv rest ih =>
      obtain ⟨k, t0, io0⟩ := kv
      by_cases hk : k = q
      · subst hk
        have hpk : (p == k) = false := by simp [h]
        simp [bump, List.lookup, hpk]
      · have hkq : (k == q) = false := by simp [hk]
        by_cases hpk : p = k
        · subst hpk
          simp [bump, List.lookup, hkq]
        · have h1 : (p == k) = false := by simp [hpk]
          simp [bump, List.lookup, hkq, h1, ih]

theorem lookup_bump_self (q : String) (th : Bool) (a : Int) :
    ∀ acc : List (String × Int × Int),
      (bump q th a acc).lookup q =
        match acc.lookup q with
        | some (t, io) => some (if th then (t + a, io) else (t, io + a))
        | none => some (if th then (a, 0) else (0, a)) := by
  intro acc
  induction acc with
  | nil => simp [bump, List.lookup]
  | cons kv rest ih =>
      obtain ⟨k, t0, io0⟩ := kv
      by_cases hk : k = q
      · subst hk
        simp [bump, List.lookup]
      · have hkq : (k == q) = false := by simp [hk]
        have hqk : (q == k) = false := by simp [Ne.symm hk]
        simp [bump, List.lookup, hkq, hqk, ih]

theorem lookup_accBalances (p : String) :
    ∀ (rows : List Row) (acc : List (String × Int × Int)),
      (accBalances rows acc).lookup p =
        match acc.lookup p with
        | some (t, io) => some (t + theySum rows p, io + ioSum rows p)
        | none =>
            if hasActive rows p then some (theySum rows p, ioSum rows p) else none := by
  intro rows
  induction rows with
  | nil =>
      intro acc
      cases hl : acc.lookup p with
      | none => simp [accBalances, hl, hasActive]
      | some v =>
          obtain ⟨t, io⟩ := v
          simp [accBalances, hl, theySum, ioSum]
  | cons r rest ih =>
      intro acc
      by_cases hst : isUnpaidStatus r.status = true
      case neg =>
        have hstb : isUnpaidStatus r.status = false := by simpa using hst
        have hacc : accBalances (r :: rest) acc = accBalances rest acc := by
          simp [accBalances, hstb]
        rw [hacc, ih, theySum_cons, ioSum_cons, hasActive_cons]
        simp [hstb]
      case pos =>
        have hacc : accBalances (r :: rest) acc =
            accBalances rest
              (bump r.person (strLower r.direction == "they_owe_me") r.amount acc) := by
          simp [accBalances, hst]
        rw [hacc, ih, theySum_cons, ioSum_cons, hasActive_cons]
        by_cases hpp : r.person = p
        · subst hpp
          rw [lookup_bump_self]
          have hppb : (r.person == r.person) = true := by simp
          cases hl : acc.lookup r.person with
          | none =>
              by_cases hth : strLower r.direction = "they_owe_me"
              · have hthb : (strLower r.direction == "they_owe_me") = true := by simp [hth]
                simp [hl, hthb, hst, hppb]
              · have hthb : (strLower r.direction == "they_owe_me") = false := by simp [hth]
                simp [hl, hthb, hst, hppb]
          | some v =>
              obtain ⟨t, io⟩ := v
              by_cases hth : strLower r.direction = "they_owe_me"
              · have hthb : (strLower r.direction == "they_owe_me") = true := by simp [hth]
                simp [hl, hthb, hst, hppb, Prod.ext_iff]
                try omega
              · have hthb : (strLower r.direction == "they_owe_me") = false := by simp [hth]
                simp [hl, hthb, hst, hppb, Prod.ext_iff]
                try omega
        · have hppb : (r.person == p) = false := by simp [hpp]
          rw [lookup_bump_ne r.person _ _ p (fun hh => hpp hh.symm)]
          cases hl : acc.lookup p with
          | none => simp [hl, hppb]
          | some v =>
              obtain ⟨t, io⟩ := v
              simp [hl, hppb]

theorem lookup_map_bal :
    ∀ (l : List (String × Int × Int)) (p : String),
      (l.map (fun x => (x.1, (⟨x.2.1, x.2.2, x.2.1 - x.2.2⟩ : BalEntry)))).lookup p =
        (l.lookup p).map (fun v => (⟨v.1, v.2, v.1 - v.2⟩ : BalEntry)) := by
  intro l
  induction l with
  | nil => intro p; rfl
  | cons kv rest ih =>
      intro p
      obtain ⟨k, t, io⟩ := kv
      by_cases h : p = k
      · subst h
        simp [List.lookup]
      · have hb : (p == k) = false := by simp [h]
        simp [List.lookup, hb, ih]

theorem lookup_get_balances (rows : List Row) (p : String) :
    (get_balances rows).lookup p =
      if hasActive rows p then
        some ⟨theySum rows p, ioSum rows p, theySum rows p - ioSum rows p⟩
      else none := by
  have h := lookup_accBalances p rows []
  have h0 : (([] : List (String × Int × Int)).lookup p) = none := rfl
  simp only [h0] at h
  unfold get_balances
  rw [lookup_map_bal, h]
  by_cases ha : hasActive rows p
  · simp [ha]
  · simp [ha]

theorem ioSumDir_cons (r : Row) (rest : List Row) (p : String) :
    ioSumDir (r :: rest) p =
      (if r.person == p && isUnpaidStatus r.status
          && (strLower r.direction == "i_owe_them") then r.amount else 0)
        + ioSumDir rest p := by
  simp only [ioSumDir, List.filter_cons]
  split
  · simp [List.sum_cons]
  · simp

theorem ioSum_eq_ioSumDir (rows : List Row) (p : String)
    (h : ∀ r ∈ rows, strLower r.direction = "they_owe_me" ∨
      strLower r.direction = "i_owe_them") :
    ioSum rows p = ioSumDir rows p := by
  induction rows with
  | nil => rfl
  | cons r rest ih =>
      have hrest := fun r' hr' => h r' (List.mem_cons_of_mem _ hr')
      rw [ioSum_cons, ioSumDir_cons, ih hrest]
      congr 1
      rcases h r (List.mem_cons_self _ _) with hthey | hio
      · have h1 : (strLower r.direction == "they_owe_me") = true := by simp [hthey]
        have h2 : (strLower r.direction == "i_owe_them") = false := by
          rw [hthey]
          decide
        rw [h1, h2]
        simp
      · have h1 : (strLower r.direction == "they_owe_me") = false := by
          rw [hio]
          decide
        have h2 : (strLower r.direction == "i_owe_them") = true := by simp [hio]
        rw [h1, h2]
        simp

/-! ### Claim theorems -/

/-- C3: for every input, `DebtService.add_debt` and `DebtService.settle_debt`
return a result with `success = False` and leave the store (and the expense
log) unchanged: the `SheetsService` they delegate to defines no `record_debt`
or `get_debts_by_person`, so every non-error-parse execution raises
AttributeError, which the surrounding handler converts into a failure
result. -/
theorem c3_debt_service_always_fails :
    (∀ (store : List Row) (p : Parse DebtData),
      (add_debt store p).1.success = false ∧ (add_debt store p).2 = store) ∧
    (∀ (store : List Row) (log : List Expense) (q : Parse SettlementData),
      (debt_settle_debt store log q).1.success = false ∧
      (debt_settle_debt store log q).2.1 = store ∧
      (debt_settle_debt store log q).2.2 = log) := by
  constructor
  · intro store p
    cases p with
    | err e => exact ⟨rfl, rfl⟩
    | ok d => exact ⟨rfl, rfl⟩
  · intro store log q
    cases q with
    | err e => exact ⟨rfl, rfl, rfl⟩
    | ok s => exact ⟨rfl, rfl, rfl⟩

/-- C5: the settlement path never emits the "Debt Payment" expense record.
Even with an active `direction = "to"` (user owes) debt stored for jana and a
well-formed parsed settlement, `DebtService.settle_debt` fails at the missing
`get_debts_by_person` attribute before reaching its expense-logging step
(debt.py lines 210-228), and the expense log stays empty. -/
theorem c5_no_expense_emitted :
    (debt_settle_debt
      [⟨"2024-01-02", "taxi", 300, "Transport", "jana", "to", "active", ""⟩] []
      (.ok ⟨"jana", some 50, some "2024-01-03"⟩)).1.success = false ∧
    (debt_settle_debt
      [⟨"2024-01-02", "taxi", 300, "Transport", "jana", "to", "active", ""⟩] []
      (.ok ⟨"jana", some 50, some "2024-01-03"⟩)).2.2 = ([] : List Expense) :=
  ⟨rfl, rfl⟩

/-- C7 (counterexample): a draft with `amount = -5` is not rejected with a
validation error: `add_debt` produces exactly the same AttributeError-derived
failure as for a valid draft with `amount = 100`, so no `amount <= 0` or
empty-person validation exists. -/
theorem c7_counterexample :
    (add_debt [] (.ok ⟨"jana", -5, "", "from", none⟩)).1 =
      (add_debt [] (.ok ⟨"jana", 100, "dinner", "from", none⟩)).1 ∧
    (add_debt [] (.ok ⟨"jana", -5, "", "from", none⟩)).1 =
      ⟨false, "Error adding debt: 'SheetsService' object has no attribute 'record_debt'"⟩ :=
  ⟨rfl, rfl⟩

/-- C7 (amended): `add_debt` performs no validation at all: every
successfully parsed draft — whether its amount is non-positive, its person
empty, or both valid — produces the identical failure result (the missing
`record_debt` AttributeError caught by the handler), and no entry is ever
recorded; the success path that would return the entry with its fresh id and
`status = "active"` is unreachable. -/
theorem c7_add_debt_never_validates :
    ∀ (store : List Row) (d d' : DebtData),
      (add_debt store (.ok d)).1 = (add_debt store (.ok d')).1 ∧
      (add_debt store (.ok d)).1.success = false ∧
      (add_debt store (.ok d)).2 = store :=
  fun _ _ _ => ⟨rfl, rfl, rfl⟩

/-- C9 (counterexample): ids are `str(uuid.uuid4())`, an external random
generator; with the generator returning these two (well-formed version-4)
outputs, the id assigned by the second creation is lexicographically smaller
than the id assigned by the first, so ids are not monotonically assigned. -/
theorem c9_counterexample :
    debtIdOfCreation
      ["f81d4fae-7dec-41d0-a765-00a0c91e6bf6",
       "0a1b2c3d-4e5f-4a6b-8c9d-0e1f2a3b4c5d"] 0 =
      some "f81d4fae-7dec-41d0-a765-00a0c91e6bf6" ∧
    debtIdOfCreation
      ["f81d4fae-7dec-41d0-a765-00a0c91e6bf6",
       "0a1b2c3d-4e5f-4a6b-8c9d-0e1f2a3b4c5d"] 1 =
      some "0a1b2c3d-4e5f-4a6b-8c9d-0e1f2a3b4c5d" ∧
    ¬ (("f81d4fae-7dec-41d0-a765-00a0c91e6bf6".data : List Char) <
        "0a1b2c3d-4e5f-4a6b-8c9d-0e1f2a3b4c5d".data) :=
  ⟨rfl, rfl, by decide⟩

/-- C9 (amended): creation order imposes no order on ids; distinctness of the
assigned ids holds exactly when the uuid4 generator never repeats an output:
if the oracle stream is duplicate-free, any two distinct creations receive
distinct ids. -/
theorem c9_ids_distinct_of_nodup (uuids : List String) (h : uuids.Nodup) :
    ∀ j k idj idk, debtIdOfCreation uuids j = some idj →
      debtIdOfCreation uuids k = some idk → j ≠ k → idj ≠ idk := by
  intro j k idj idk hj hk hjk heq
  apply hjk
  have hjk' : uuids.get? j = uuids.get? k := by
    rw [show uuids.get? j = debtIdOfCreation uuids j from rfl, hj,
        show uuids.get? k = debtIdOfCreation uuids k from rfl, hk, heq]
  have hlen : j < uuids.length := by
    by_contra hcon
    have hnone : uuids.get? j = none := List.get?_eq_none.mpr (by omega)
    rw [show uuids.get? j = debtIdOfCreation uuids j from rfl, hj] at hnone
    exact Option.noConfusion hnone
  have hjk2 : uuids[j]? = uuids[k]? := by
    rw [← List.get?_eq_getElem?, ← List.get?_eq_getElem?]
    exact hjk'
  exact List.getElem?_inj hlen h hjk2

theorem c9_witness :
    debtIdOfCreation ["a", "b"] 0 = some "a" ∧ ("a" : String) ≠ "b" :=
  ⟨rfl, c9_ids_distinct_of_nodup ["a", "b"] (by decide) 0 1 "a" "b" rfl rfl (by decide)⟩

/-- C2 (counterexample): a partial settlement of 40 against a single 100
entry does not set the entry's amount to the paid portion, does not mark it
Settled, sets no settled date, and creates no remainder entry: the row merely
gets Status "Partial" (amount still 100, settled date still empty) and the
sheet keeps length 1. -/
theorem c2_counterexample :
    (settle_shared_expense
      [⟨"2024-01-01", "dinner", 100, "Food", "jana", "they_owe_me", "Unpaid", ""⟩]
      "jana" (some 40) "2024-01-03").sheet =
      [⟨"2024-01-01", "dinner", 100, "Food", "jana", "they_owe_me", "Partial", ""⟩] ∧
    (settle_shared_expense
      [⟨"2024-01-01", "dinner", 100, "Food", "jana", "they_owe_me", "Unpaid", ""⟩]
      "jana" (some 40) "2024-01-03").success = true := by
  decide

/-- C2 (amended): no settlement ever splits an entry.  The sheet's length is
always preserved (no remainder entry is created), and every row is either
unchanged, fully settled (Status "Settled" and Settled Date today, the
amount untouched), or merely marked "Partial" with every other cell
unchanged. -/
theorem c2_no_split (rows : List Row) (person : String) (amount : Option Int)
    (today : String) :
    (settle_shared_expense rows person amount today).sheet.length = rows.length ∧
    ∀ j, (settle_shared_expense rows person amount today).sheet.get? j = rows.get? j ∨
      ∃ r, rows.get? j = some r ∧
        ((settle_shared_expense rows person amount today).sheet.get? j =
            some (setSettled today r) ∨
         (settle_shared_expense rows person amount today).sheet.get? j =
            some (setPartial r)) := by
  by_cases hne : unpaidFor person rows = []
  · obtain ⟨_, hsheet, _⟩ := settle_no_unpaid rows person amount today hne
    rw [hsheet]
    exact ⟨rfl, fun j => Or.inl rfl⟩
  · obtain ⟨amt, heq⟩ := settle_active_any rows person amount today hne
    rw [heq]
    exact ⟨allocate_length _ _ _ _ _ _,
      fun j => allocate_shape _ _ _ _ _ _ j (sortedU_pairwise_ne person rows)⟩

/-- C6 (counterexample): a settlement of amount 0 against an existing active
entry is not rejected: it returns success with `settled_amount = 0` (and no
state change) instead of failing with a validation error. -/
theorem c6_counterexample :
    (settle_shared_expense
      [⟨"2024-01-01", "dinner", 100, "Food", "jana", "they_owe_me", "Unpaid", ""⟩]
      "jana" (some 0) "2024-01-03").success = true ∧
    (settle_shared_expense
      [⟨"2024-01-01", "dinner", 100, "Food", "jana", "they_owe_me", "Unpaid", ""⟩]
      "jana" (some 0) "2024-01-03").sheet =
      [⟨"2024-01-01", "dinner", 100, "Food", "jana", "they_owe_me", "Unpaid", ""⟩] ∧
    (settle_shared_expense
      [⟨"2024-01-01", "dinner", 100, "Food", "jana", "they_owe_me", "Unpaid", ""⟩]
      "jana" (some 0) "2024-01-03").settled_amount = 0 := by
  decide

/-- C6 (amended): when no unpaid-or-partial entry exists for the person (in
particular on an empty sheet) the settlement fails and changes no ledger
entry; but a non-positive amount is not rejected: the call leaves every
entry unchanged with `settled_amount = 0` (succeeding whenever active entries
exist, per the counterexample). -/
theorem c6_settle_guards (rows : List Row) (person : String) (today : String) :
    (∀ amount, unpaidFor person rows = [] →
      (settle_shared_expense rows person amount today).success = false ∧
      (settle_shared_expense rows person amount today).sheet = rows ∧
      (settle_shared_expense rows person amount today).settled_amount = 0) ∧
    (∀ a : Int, a ≤ 0 →
      (settle_shared_expense rows person (some a) today).sheet = rows ∧
      (settle_shared_expense rows person (some a) today).settled_amount = 0) := by
  constructor
  · intro amount hne
    exact settle_no_unpaid rows person amount today hne
  · intro a ha
    by_cases hne : unpaidFor person rows = []
    · obtain ⟨_, h2, h3⟩ := settle_no_unpaid rows person (some a) today hne
      exact ⟨h2, h3⟩
    · rw [settle_active_eq rows person a today hne,
        allocate_nonpos _ _ _ rows a 0 ha]
      exact ⟨rfl, rfl⟩

theorem c6_witness :
    (settle_shared_expense [] "nobody" (some 50) "2024-01-03").success = false :=
  ((c6_settle_guards [] "nobody" "2024-01-03").1 (some 50) rfl).1

/-- C10: no settlement modifies a stored entry's Amount cell; a row marked
"Partial" by a partial settlement differs from the original row only in its
Status cell (Amount, Date, Person, Direction, Description, Category and
Settled Date all unchanged); and a "Partial" row keeps contributing its full
original amount to `get_balances`. -/
theorem c10_partial_changes_only_status (rows : List Row) (person : String)
    (amount : Option Int) (today : String) :
    (∀ j, ((settle_shared_expense rows person amount today).sheet.get? j).map Row.amount =
        (rows.get? j).map Row.amount) ∧
    (∀ j r r', rows.get? j = some r →
      (settle_shared_expense rows person amount today).sheet.get? j = some r' →
      r'.status = "Partial" → ¬ r.status = "Partial" → r' = setPartial r) ∧
    (∀ r rs, isUnpaidStatus r.status = true → strLower r.direction = "they_owe_me" →
      (get_balances (r :: rs)).lookup r.person =
        some ⟨r.amount + theySum rs r.person, ioSum rs r.person,
              r.amount + theySum rs r.person - ioSum rs r.person⟩) := by
  refine ⟨?_, ?_, ?_⟩
  · intro j
    by_cases hne : unpaidFor person rows = []
    · rw [(settle_no_unpaid rows person amount today hne).2.1]
    · obtain ⟨amt, heq⟩ := settle_active_any rows person amount today hne
      rw [heq]
      rcases allocate_shape (chosenDir person rows) today
          (List.insertionSort amountLE (unpaidFor person rows)) rows amt 0 j
          (sortedU_pairwise_ne person rows) with h | ⟨r, hr, h | h⟩
      · rw [h]
      · rw [h, hr]
        rfl
      · rw [h, hr]
        rfl
  · intro j r r' hr hr' hp hnp
    by_cases hne : unpaidFor person rows = []
    · rw [(settle_no_unpaid rows person amount today hne).2.1, hr] at hr'
      have hrr : r = r' := by
        injection hr'
      rw [← hrr] at hp
      exact absurd hp hnp
    · obtain ⟨amt, heq⟩ := settle_active_any rows person amount today hne
      rw [heq] at hr'
      rcases allocate_shape (chosenDir person rows) today
          (List.insertionSort amountLE (unpaidFor person rows)) rows amt 0 j
          (sortedU_pairwise_ne person rows) with h | ⟨r0, hr0, h | h⟩
      · rw [h, hr] at hr'
        have hrr : r = r' := by
          injection hr'
        rw [← hrr] at hp
        exact absurd hp hnp
      · rw [h] at hr'
        have hrr : setSettled today r0 = r' := by
          injection hr'
        have : r'.status = "Settled" := by
          rw [← hrr]
          rfl
        rw [this] at hp
        simp at hp
      · rw [h] at hr'
        have hrr : setPartial r0 = r' := by
          injection hr'
        have hr0r : r0 = r := by
          rw [hr] at hr0
          injection hr0 with hv
          exact hv.symm
        rw [← hrr, hr0r]
  · intro r rs hst hdir
    rw [lookup_get_balances]
    have hact : hasActive (r :: rs) r.person = true := by
      rw [hasActive_cons]
      simp [hst]
    have hts : theySum (r :: rs) r.person = r.amount + theySum rs r.person := by
      rw [theySum_cons]
      have hc : (r.person == r.person && isUnpaidStatus r.status
          && (strLower r.direction == "they_owe_me")) = true := by
        simp [hst, hdir]
      rw [hc]
      simp
    have hios : ioSum (r :: rs) r.person = ioSum rs r.person := by
      rw [ioSum_cons]
      have hc : (r.person == r.person && isUnpaidStatus r.status
          && !(strLower r.direction == "they_owe_me")) = false := by
        simp [hdir]
      rw [hc]
      simp
    rw [hact, hts, hios]
    simp

theorem c10_witness :
    (get_balances
      [⟨"2024-01-01", "dinner", 100, "Food", "jana", "they_owe_me", "Partial", ""⟩]).lookup
        "jana" =
      some ⟨100 + theySum [] "jana", ioSum [] "jana",
            100 + theySum [] "jana" - ioSum [] "jana"⟩ :=
  (c10_partial_changes_only_status [] "jana" none "2024-01-03").2.2
    ⟨"2024-01-01", "dinner", 100, "Food", "jana", "they_owe_me", "Partial", ""⟩ []
    (by decide) (by decide)

/-- C4 (counterexample): for a person with zero entries no all-zero balance
is returned: `get_balances` simply has no entry for that person, and the
`DebtService.get_balance` wrapper fails outright (its `get_net_balance`
delegate does not exist), contradicting the all-zero-balance clause. -/
theorem c4_counterexample :
    (get_balances
      [⟨"2024-01-01", "dinner", 100, "Food", "alice", "they_owe_me", "Unpaid", ""⟩]).lookup
        "nobody" = none ∧
    (get_balance (some "nobody")).success = false :=
  ⟨by decide, rfl⟩

/-- C4 (amended): for every person present in the balances mapping,
`they_owe_me` is the sum of amounts over unpaid-or-partial rows of direction
`they_owe_me`, `i_owe_them` the sum over the remaining unpaid-or-partial rows
(which equals the sum over direction `i_owe_them` whenever every row's
direction is one of the two), and `net_amount` their difference; Settled rows
never contribute (the sums range over unpaid-or-partial rows only); a person
with no active rows has no entry in the mapping rather than an all-zero
balance; and `DebtService.get_balance` always fails. -/
theorem c4_balance_sums (rows : List Row) (p : String) :
    (∀ b, (get_balances rows).lookup p = some b →
      b.they_owe_me = theySum rows p ∧
      b.i_owe_them = ioSum rows p ∧
      b.net_amount = b.they_owe_me - b.i_owe_them) ∧
    ((∀ r ∈ rows, strLower r.direction = "they_owe_me" ∨
        strLower r.direction = "i_owe_them") →
      ioSum rows p = ioSumDir rows p) ∧
    (hasActive rows p = false → (get_balances rows).lookup p = none) ∧
    (get_balance (some p)).success = false := by
  refine ⟨?_, ioSum_eq_ioSumDir rows p, ?_, rfl⟩
  · intro b hb
    rw [lookup_get_balances] at hb
    cases hha : hasActive rows p with
    | true =>
        rw [hha] at hb
        simp only [if_true] at hb
        have hbv : b = ⟨theySum rows p, ioSum rows p, theySum rows p - ioSum rows p⟩ := by
          injection hb with h
          exact h.symm
        rw [hbv]
        exact ⟨rfl, rfl, rfl⟩
    | false =>
        rw [hha] at hb
        simp at hb
  · intro hf
    rw [lookup_get_balances, hf]
    simp

theorem settle_core_props (rows : List Row) (person : String) (a : Int) (today : String)
    (hpos : ∀ e ∈ unpaidFor person rows, 0 < e.amount) :
    (∀ j r, rows.get? j = some r →
        ¬ strLower r.direction = chosenDir person rows →
        (allocate (chosenDir person rows) today
          (List.insertionSort amountLE (unpaidFor person rows)) rows a 0).sheet.get? j =
          some r)
    ∧ (∀ j r, rows.get? j = some r → keepsRow person r = false →
        (allocate (chosenDir person rows) today
          (List.insertionSort amountLE (unpaidFor person rows)) rows a 0).sheet.get? j =
          some r)
    ∧ (matchTotal (chosenDir person rows) (unpaidFor person rows) ≤ a →
        ∀ j r, rows.get? j = some r → keepsRow person r = true →
          strLower r.direction = chosenDir person rows →
          (allocate (chosenDir person rows) today
            (List.insertionSort amountLE (unpaidFor person rows)) rows a 0).sheet.get? j =
            some (setSettled today r))
    ∧ (∀ e f, e ∈ unpaidFor person rows → f ∈ unpaidFor person rows →
        strLower e.direction = chosenDir person rows →
        strLower f.direction = chosenDir person rows →
        e.amount < f.amount →
        (∃ rf, rows.get? f.row_idx = some rf ∧
          (allocate (chosenDir person rows) today
            (List.insertionSort amountLE (unpaidFor person rows)) rows a 0).sheet.get?
              f.row_idx = some (setSettled today rf)) →
        ∃ re, rows.get? e.row_idx = some re ∧
          (allocate (chosenDir person rows) today
            (List.insertionSort amountLE (unpaidFor person rows)) rows a 0).sheet.get?
              e.row_idx = some (setSettled today re)) := by
  refine ⟨?_, ?_, ?_, ?_⟩
  · intro j r hr hd
    have hframe : ∀ e ∈ List.insertionSort amountLE (unpaidFor person rows),
        e.row_idx = j → ¬ strLower e.direction = chosenDir person rows := by
      intro e he hej
      have he' : e ∈ unpaidFor person rows := mem_sortedU.mp he
      obtain ⟨r', hr', _, hmk⟩ := mem_unpaidFor_imp he'
      rw [hej, hr] at hr'
      have hrr : r = r' := by
        injection hr'
      rw [hmk]
      simpa [mkExp, ← hrr] using hd
    rw [allocate_frame (chosenDir person rows) today
      (List.insertionSort amountLE (unpaidFor person rows)) rows a 0 j hframe, hr]
  · intro j r hr hk
    have hframe : ∀ e ∈ List.insertionSort amountLE (unpaidFor person rows),
        e.row_idx = j → ¬ strLower e.direction = chosenDir person rows := by
      intro e he hej
      have he' : e ∈ unpaidFor person rows := mem_sortedU.mp he
      obtain ⟨r', hr', hk', _⟩ := mem_unpaidFor_imp he'
      rw [hej, hr] at hr'
      have hrr : r = r' := by
        injection hr'
      rw [← hrr] at hk'
      rw [hk'] at hk
      exact absurd hk (by simp)
    rw [allocate_frame (chosenDir person rows) today
      (List.insertionSort amountLE (unpaidFor person rows)) rows a 0 j hframe, hr]
  · intro hcov j r hr hk hd
    obtain ⟨_, _, h3⟩ := allocate_cover (chosenDir person rows) today
      (List.insertionSort amountLE (unpaidFor person rows)) rows a 0
      (sortedU_pairwise_ne person rows)
      (fun e he _ => hpos e (mem_sortedU.mp he))
      (by rw [matchTotal_sortedU]; exact hcov)
    have hmem : mkExp j r ∈ List.insertionSort amountLE (unpaidFor person rows) :=
      mem_sortedU.mpr (mkExp_mem_unpaidFor hr hk)
    have := h3 (mkExp j r) hmem (by simpa [mkExp] using hd)
    rw [show (mkExp j r).row_idx = j from rfl, hr] at this
    exact this
  · intro e f he hf hde hdf hlt hfset
    exact allocate_order (chosenDir person rows) today
      (List.insertionSort amountLE (unpaidFor person rows)) rows a 0
      (sortedU_pairwise_ne person rows) (sortedU_sorted person rows)
      (by
        intro x hx
        obtain ⟨r', hr', hk', hmk⟩ := mem_unpaidFor_imp (mem_sortedU.mp hx)
        exact ⟨r', hr', ((Bool.and_eq_true _ _).mp hk').2⟩)
      e f (mem_sortedU.mpr he) (mem_sortedU.mpr hf) hde hdf hlt hfset

/-- C1 (counterexample): allocation is neither createdDate-ordered nor
direction-agnostic.  With two Active `they_owe_me` entries for jana — the
older (2024-01-01) of amount 500 and the newer (2024-01-02) of amount 100 —
a settlement of 100 fully settles the *newer* entry (amount order) and leaves
the older entry untouched, while the claim's createdDate-ascending rule would
have allocated the whole payment to the older entry and fully settled
nothing. -/
theorem c1_counterexample :
    (settle_shared_expense
      [⟨"2024-01-01", "dinner", 500, "Food", "jana", "they_owe_me", "Unpaid", ""⟩,
       ⟨"2024-01-02", "gift", 100, "Fun", "jana", "they_owe_me", "Unpaid", ""⟩]
      "jana" (some 100) "2024-01-03").sheet =
      [⟨"2024-01-01", "dinner", 500, "Food", "jana", "they_owe_me", "Unpaid", ""⟩,
       ⟨"2024-01-02", "gift", 100, "Fun", "jana", "they_owe_me", "Settled", "2024-01-03"⟩] ∧
    (settle_shared_expense
      [⟨"2024-01-01", "dinner", 500, "Food", "jana", "they_owe_me", "Unpaid", ""⟩,
       ⟨"2024-01-02", "gift", 100, "Fun", "jana", "they_owe_me", "Unpaid", ""⟩]
      "jana" (some 100) "2024-01-03").success = true := by
  decide

/-- C1 (amended): with at least one unpaid-or-partial entry for the person,
the settlement succeeds and the payment is allocated only across that
person's unpaid-or-partial entries whose direction matches the net-balance
direction (`they_owe_me` if the net is positive, `i_owe_them` otherwise), in
amount-ascending rather than createdDate order: rows of the other direction,
of other persons, or of non-active status are never modified; when the amount
covers the matching entries' total, each of them is fully settled (Status
"Settled", Settled Date today); and whenever a larger matching entry ends up
fully settled, so does every strictly smaller matching entry (the
amount-order analogue of allocating in order while the remainder covers each
entry). -/
theorem c1_settle_direction_and_amount_order (rows : List Row) (person : String)
    (a : Int) (today : String)
    (hne : unpaidFor person rows ≠ [])
    (hpos : ∀ e ∈ unpaidFor person rows, 0 < e.amount) :
    (settle_shared_expense rows person (some a) today).success = true
    ∧ (∀ j r, rows.get? j = some r →
        ¬ strLower r.direction = chosenDir person rows →
        (settle_shared_expense rows person (some a) today).sheet.get? j = some r)
    ∧ (∀ j r, rows.get? j = some r → keepsRow person r = false →
        (settle_shared_expense rows person (some a) today).sheet.get? j = some r)
    ∧ (matchTotal (chosenDir person rows) (unpaidFor person rows) ≤ a →
        ∀ j r, rows.get? j = some r → keepsRow person r = true →
          strLower r.direction = chosenDir person rows →
          (settle_shared_expense rows person (some a) today).sheet.get? j =
            some (setSettled today r))
    ∧ (∀ e f, e ∈ unpaidFor person rows → f ∈ unpaidFor person rows →
        strLower e.direction = chosenDir person rows →
        strLower f.direction = chosenDir person rows →
        e.amount < f.amount →
        (∃ rf, rows.get? f.row_idx = some rf ∧
          (settle_shared_expense rows person (some a) today).sheet.get? f.row_idx =
            some (setSettled today rf)) →
        ∃ re, rows.get? e.row_idx = some re ∧
          (settle_shared_expense rows person (some a) today).sheet.get? e.row_idx =
            some (setSettled today re)) := by
  rw [settle_active_eq rows person a today hne]
  obtain ⟨h1, h2, h3, h4⟩ := settle_core_props rows person a today hpos
  exact ⟨rfl, h1, h2, h3, h4⟩

theorem c1_witness :
    (settle_shared_expense
      [⟨"2024-01-01", "dinner", 100, "Food", "jana", "they_owe_me", "Unpaid", ""⟩]
      "jana" (some 100) "2024-01-03").success = true :=
  (c1_settle_direction_and_amount_order
    [⟨"2024-01-01", "dinner", 100, "Food", "jana", "they_owe_me", "Unpaid", ""⟩]
    "jana" 100 "2024-01-03" (by decide) (by decide)).1

/-- C8 (counterexample): with an Active `they_owe_me` 100 and an Active
`i_owe_them` 30 for jana, a settlement of 200 settles only the matching-
direction entry: the `i_owe_them` entry stays Unpaid (so not every Active
entry is settled), and the result reports `settled_amount = 100` with no
`overpaid` component (the excess 200 − 130 = 70 is nowhere reported). -/
theorem c8_counterexample :
    (settle_shared_expense
      [⟨"2024-01-01", "dinner", 100, "Food", "jana", "they_owe_me", "Unpaid", ""⟩,
       ⟨"2024-01-02", "taxi", 30, "Transport", "jana", "i_owe_them", "Unpaid", ""⟩]
      "jana" (some 200) "2024-01-03").sheet.get? 1 =
      some ⟨"2024-01-02", "taxi", 30, "Transport", "jana", "i_owe_them", "Unpaid", ""⟩ ∧
    (settle_shared_expense
      [⟨"2024-01-01", "dinner", 100, "Food", "jana", "they_owe_me", "Unpaid", ""⟩,
       ⟨"2024-01-02", "taxi", 30, "Transport", "jana", "i_owe_them", "Unpaid", ""⟩]
      "jana" (some 200) "2024-01-03").settled_amount = 100 ∧
    (settle_shared_expense
      [⟨"2024-01-01", "dinner", 100, "Food", "jana", "they_owe_me", "Unpaid", ""⟩,
       ⟨"2024-01-02", "taxi", 30, "Transport", "jana", "i_owe_them", "Unpaid", ""⟩]
      "jana" (some 200) "2024-01-03").success = true := by
  decide

/-- C8 (amended): when the settlement amount covers the total of the
person's unpaid-or-partial entries in the net-balance direction, exactly
those entries are settled: each matching entry becomes Settled with Settled
Date today, entries of the other direction are left untouched, the sheet's
length is unchanged (no reverse-direction entry is ever created), and the
result's `settled_amount` equals the matching total — the excess is not
reported (the result carries no overpaid component). -/
theorem c8_overpay_settles_matching_direction (rows : List Row) (person : String)
    (a : Int) (today : String)
    (hne : unpaidFor person rows ≠ [])
    (hpos : ∀ e ∈ unpaidFor person rows, 0 < e.amount)
    (hcov : matchTotal (chosenDir person rows) (unpaidFor person rows) ≤ a) :
    (settle_shared_expense rows person (some a) today).success = true
    ∧ (settle_shared_expense rows person (some a) today).settled_amount =
        matchTotal (chosenDir person rows) (unpaidFor person rows)
    ∧ (settle_shared_expense rows person (some a) today).sheet.length = rows.length
    ∧ (∀ j r, rows.get? j = some r → keepsRow person r = true →
        strLower r.direction = chosenDir person rows →
        (settle_shared_expense rows person (some a) today).sheet.get? j =
          some (setSettled today r))
    ∧ (∀ j r, rows.get? j = some r →
        ¬ strLower r.direction = chosenDir person rows →
        (settle_shared_expense rows person (some a) today).sheet.get? j = some r) := by
  rw [settle_active_eq rows person a today hne]
  obtain ⟨h1, _, h3, _⟩ := settle_core_props rows person a today hpos
  obtain ⟨_, hc2, _⟩ := allocate_cover (chosenDir person rows) today
    (List.insertionSort amountLE (unpaidFor person rows)) rows a 0
    (sortedU_pairwise_ne person rows)
    (fun e he _ => hpos e (mem_sortedU.mp he))
    (by rw [matchTotal_sortedU]; exact hcov)
  rw [matchTotal_sortedU] at hc2
  refine ⟨rfl, ?_, allocate_length _ _ _ _ _ _, h3 hcov, h1⟩
  rw [hc2]
  ring

theorem c8_witness :
    (settle_shared_expense
      [⟨"2024-01-01", "dinner", 100, "Food", "jana", "they_owe_me", "Unpaid", ""⟩]
      "jana" (some 150) "2024-01-03").settled_amount =
      matchTotal
        (chosenDir "jana"
          [⟨"2024-01-01", "dinner", 100, "Food", "jana", "they_owe_me", "Unpaid", ""⟩])
        (unpaidFor "jana"
          [⟨"2024-01-01", "dinner", 100, "Food", "jana", "they_owe_me", "Unpaid", ""⟩]) :=
  (c8_overpay_settles_matching_direction
    [⟨"2024-01-01", "dinner", 100, "Food", "jana", "they_owe_me", "Unpaid", ""⟩]
    "jana" 150 "2024-01-03" (by decide) (by decide) (by decide)).2.1

theorem c4_witness :
    ((100 : Int) = theySum
        [⟨"2024-01-01", "dinner", 100, "Food", "alice", "they_owe_me", "Unpaid", ""⟩]
        "alice" ∧
      (0 : Int) = ioSum
        [⟨"2024-01-01", "dinner", 100, "Food", "alice", "they_owe_me", "Unpaid", ""⟩]
        "alice" ∧
      (100 : Int) = 100 - 0) :=
  (c4_balance_sums
    [⟨"2024-01-01", "dinner", 100, "Food", "alice", "they_owe_me", "Unpaid", ""⟩]
    "alice").1 ⟨100, 0, 100⟩ (by decide)

end Mada
